import Mathlib

/-!
Shallow embedding of the Flutter-code generation backend:
the OpenAI response extraction/classification pipeline
(`src/openai/openai.service.ts`) and the automatic navigation
synthesizer (`auto-navigation.service.ts`).

Strings are modelled as Lean `String`/`List Char`; the JavaScript
regular expressions used by the extractor are embedded as specialized
executable scanners with the same matching semantics (leftmost match,
non-overlapping global scans, greedy character classes followed by
disjoint literals, lazy `[\s\S]*?` as earliest-terminator search).
Fallible code is modelled with `Except`; the JavaScript `undefined`
value escaping from `split(',')[1]` is modelled with `Option`.
-/

/-- JavaScript `\s` (ASCII part): space, tab, newline, carriage return,
vertical tab, form feed. -/
def wsChar (c : Char) : Bool :=
  c = ' ' || c = '\t' || c = '\n' || c = '\r' || c = '\x0b' || c = '\x0c'

/-- JavaScript `\w`: ASCII letters, digits and underscore. -/
def wordChar (c : Char) : Bool :=
  ('a' ≤ c && c ≤ 'z') || ('A' ≤ c && c ≤ 'Z') || ('0' ≤ c && c ≤ '9') || c = '_'

/-- Character class `[\w-]` of the suffix file-name patterns. -/
def nameCharS (c : Char) : Bool := wordChar c || c = '-'

/-- Character class (word chars, hyphen, forward slash) of the generic
dart file-name pattern. -/
def nameCharG (c : Char) : Bool := wordChar c || c = '-' || c = '/'

/-- Split `t` at the first occurrence of `sub`: returns the part strictly
before the occurrence and the part strictly after it.  `none` when `sub`
does not occur.  This is the primitive behind `String.prototype.includes`,
`indexOf`, and the lazy `[\s\S]*?lit` regex idiom. -/
def findSplit (sub : List Char) : List Char → Option (List Char × List Char)
  | [] => if sub.isEmpty then some ([], []) else none
  | c :: rest =>
    if sub.isPrefixOf (c :: rest) then some ([], (c :: rest).drop sub.length)
    else match findSplit sub rest with
      | some (a, b) => some (c :: a, b)
      | none => none

/-- JavaScript `String.prototype.includes`. -/
def strContains (s sub : String) : Bool := (findSplit sub.data s.data).isSome

/-- JavaScript `String.prototype.startsWith`. -/
def jsStartsWith (s pre : String) : Bool := pre.data.isPrefixOf s.data

/-- JavaScript `String.prototype.toLowerCase` (ASCII). -/
def jsToLower (s : String) : String := String.mk (s.data.map Char.toLower)

deriving instance DecidableEq for Except

/-- JavaScript `String.prototype.trim` (ASCII whitespace). -/
def trimWs (t : List Char) : List Char :=
  ((t.dropWhile wsChar).reverse.dropWhile wsChar).reverse

/-- JavaScript `String.prototype.replace` with a plain-string pattern:
replaces only the first occurrence. -/
def replaceFirstList (pat rep : List Char) : List Char → List Char
  | [] => []
  | c :: rest =>
    if pat.isPrefixOf (c :: rest) then rep ++ (c :: rest).drop pat.length
    else c :: replaceFirstList pat rep rest

/-- `fileName.replace('.dart', '')` of the block classifier. -/
def replaceFirstStr (pat rep s : String) : String :=
  String.mk (replaceFirstList pat.data rep.data s.data)

/-- JavaScript `String.prototype.split` with a one-character separator:
splits at every occurrence and keeps empty segments. -/
def jsSplitChar (sep : Char) : List Char → List (List Char)
  | [] => [[]]
  | c :: rest =>
    if c = sep then [] :: jsSplitChar sep rest
    else match jsSplitChar sep rest with
      | h :: t => (c :: h) :: t
      | [] => [[c]]

/-- JavaScript `String.prototype.split(',')`. -/
def jsSplitComma (l : List Char) : List (List Char) := jsSplitChar ',' l

/-- Decimal rendering of a natural number (JavaScript template
interpolation of an array index); `fuel` bounds the digit count. -/
def natDecAux : Nat → Nat → List Char → List Char
  | 0, n, acc => Char.ofNat (48 + n % 10) :: acc
  | fuel + 1, n, acc =>
    let d := Char.ofNat (48 + n % 10)
    if n < 10 then d :: acc else natDecAux fuel (n / 10) (d :: acc)

/-- Decimal digits of `n`. -/
def natDec (n : Nat) : List Char := natDecAux n n []

/-- Base64 alphabet used by Node's `Buffer.prototype.toString('base64')`. -/
def base64Alphabet : List Char :=
  "ABCDEFGHIJKLMNOPQRSTUVWXYZabcdefghijklmnopqrstuvwxyz0123456789+/".data

/-- Base64 digit for a 6-bit value. -/
def b64Digit (n : Nat) : Char := base64Alphabet.getD n 'A'

/-- Standard base64 encoding with padding, 3 input bytes per group
(Node `Buffer.prototype.toString('base64')`). -/
def base64EncodeList : List UInt8 → List Char
  | [] => []
  | [a] =>
    let x := a.toNat
    [b64Digit (x / 4), b64Digit (x % 4 * 16), '=', '=']
  | [a, b] =>
    let x := a.toNat * 256 + b.toNat
    [b64Digit (x / 1024), b64Digit (x / 16 % 64), b64Digit (x % 16 * 4), '=']
  | a :: b :: c :: rest =>
    let x := a.toNat * 65536 + b.toNat * 256 + c.toNat
    b64Digit (x / 262144) :: b64Digit (x / 4096 % 64) :: b64Digit (x / 64 % 64) ::
      b64Digit (x % 64) :: base64EncodeList rest

/-- Node `Buffer` as a byte list rendered to its base64 string. -/
def base64Encode (bytes : List UInt8) : String := String.mk (base64EncodeList bytes)

/-- The runtime shapes `prepareImageBase64` can receive: a Node `Buffer`,
a JavaScript string, or anything else (`null`, objects, ...). -/
inductive ImageInput where
  | buffer (bytes : List UInt8)
  | str (s : String)
  | other
deriving DecidableEq

/-- `OpenAIService.prepareImageBase64`.  A `Buffer` is base64-encoded;
a string starting with `data:image` is split on commas and the second
segment is returned (`split(',')[1]`, which is `undefined` — modelled as
`none` — when the string holds no comma); any other string passes
through; every other shape throws `Formato de imagen no soportado`. -/
def prepareImageBase64 : ImageInput → Except String (Option String)
  | .buffer bytes => .ok (some (base64Encode bytes))
  | .str s =>
    if jsStartsWith s "data:image" then
      .ok (((jsSplitComma s.data).get? 1).map String.mk)
    else .ok (some s)
  | .other => .error "Formato de imagen no soportado"

/-! ## Code-block extraction (`OpenAIService.extractFileBlocks`) -/

/-- File-name sub-pattern of the six fenced-block regexes: the reserved
`main.dart` literal, a suffix convention (`_screen`, `_widget`, `_model`,
`_service` before `.dart`), or any generic dart file name. -/
inductive NameKind where
  | mainK
  | suffixK (suf : List Char)
  | genericK

/-- Matches the file-name part of a fenced-block pattern at the start of
`t`; returns the captured file name and the text after the consumed
name.  For a suffix pattern the greedy word-char run must end with the
suffix (with a nonempty stem before it) and be followed by `.dart`;
for the generic pattern a nonempty word-char run followed by `.dart`. -/
def matchName : NameKind → List Char → Option (List Char × List Char)
  | .mainK, t =>
    if "main.dart".data.isPrefixOf t then some ("main.dart".data, t.drop 9) else none
  | .suffixK suf, t =>
    let m := t.takeWhile nameCharS
    if suf.isSuffixOf m && decide (suf.length < m.length)
        && ".dart".data.isPrefixOf (t.drop m.length)
    then some (m ++ ".dart".data, t.drop (m.length + 5))
    else none
  | .genericK, t =>
    let m := t.takeWhile nameCharG
    if !m.isEmpty && ".dart".data.isPrefixOf (t.drop m.length)
    then some (m ++ ".dart".data, t.drop (m.length + 5))
    else none

/-- Attempts one fenced-block pattern at the start of `t`:
literal three backticks and `dart`, whitespace, `//`, whitespace, the
file-name part, then lazily anything up to the earliest closing
three backticks.  On success returns (file name, whole match text,
text after the match). -/
def matchFenceAt (kind : NameKind) (t : List Char) : Option (List Char × List Char × List Char) :=
  if "```dart".data.isPrefixOf t then
    let r1 := (t.drop 7).dropWhile wsChar
    if "//".data.isPrefixOf r1 then
      let r2 := (r1.drop 2).dropWhile wsChar
      match matchName kind r2 with
      | none => none
      | some (fn, r3) =>
        match findSplit "```".data r3 with
        | none => none
        | some (_, rest) => some (fn, t.take (t.length - rest.length), rest)
    else none
  else none

/-- `String.prototype.matchAll` for one fenced-block pattern: leftmost
matches, scanning resumes after each match.  `fuel` is initialised with
the text length (each step advances by at least one character). -/
def scanFences (kind : NameKind) : Nat → List Char → List (List Char × List Char)
  | 0, _ => []
  | _, [] => []
  | fuel + 1, t@(_ :: rest) =>
    match matchFenceAt kind t with
    | some (fn, mt, after) => (fn, mt) :: scanFences kind fuel after
    | none => scanFences kind fuel rest

/-- First global replace of `extractCodeContent`: removes every
occurrence of three backticks + `dart`, whitespace, `//`, whitespace,
the rest of the comment line, and following whitespace. -/
def eccRep1 : Nat → List Char → List Char
  | 0, t => t
  | _, [] => []
  | fuel + 1, t@(c :: rest) =>
    if "```dart".data.isPrefixOf t then
      let r1 := (t.drop 7).dropWhile wsChar
      if "//".data.isPrefixOf r1 then
        let r2 := (r1.drop 2).dropWhile wsChar
        let r3 := r2.dropWhile (fun c => !(c = '\n' || c = '\r'))
        eccRep1 fuel (r3.dropWhile wsChar)
      else c :: eccRep1 fuel rest
    else c :: eccRep1 fuel rest

/-- Second global replace of `extractCodeContent`: removes every
occurrence of three backticks + `dart` and following whitespace. -/
def eccRep2 : Nat → List Char → List Char
  | 0, t => t
  | _, [] => []
  | fuel + 1, t@(c :: rest) =>
    if "```dart".data.isPrefixOf t then
      eccRep2 fuel ((t.drop 7).dropWhile wsChar)
    else c :: eccRep2 fuel rest

/-- Third replace of `extractCodeContent`: strips a closing fence of
three backticks anchored at the end of the string. -/
def eccRep3 (t : List Char) : List Char :=
  if "```".data.isSuffixOf t then t.take (t.length - 3) else t

/-- `OpenAIService.extractCodeContent`: strips the fence markers and the
leading file-name comment line from a matched block and trims it. -/
def extractCodeContent (block : List Char) : String :=
  String.mk (trimWs (eccRep3 (eccRep2 block.length (eccRep1 block.length block))))

/-- `OpenAIService.inferFileNameFromContent`: synthesizes a file name
for a comment-less dart block from content signatures. -/
def inferFileNameFromContent (content : String) (index : Nat) : String :=
  if strContains content "void main()" || strContains content "runApp(" then
    "main.dart"
  else if strContains content "StatefulWidget" || strContains content "StatelessWidget" then
    if strContains content "Screen" || strContains content "Page" then
      String.mk ("screen_".data ++ natDec index ++ ".dart".data)
    else
      String.mk ("widget_".data ++ natDec index ++ ".dart".data)
  else if strContains content "class" && !strContains content "extends" then
    String.mk ("model_".data ++ natDec index ++ ".dart".data)
  else if strContains content "service" || strContains content "Service"
      || strContains content "Repository" then
    String.mk ("service_".data ++ natDec index ++ ".dart".data)
  else
    String.mk ("file_".data ++ natDec index ++ ".dart".data)

/-- Scanner for the comment-less generic fallback pattern (three
backticks + `dart`, lazily anything, closing three backticks):
returns the match texts. -/
def scanDartFences : Nat → List Char → List (List Char)
  | 0, _ => []
  | _, [] => []
  | fuel + 1, t@(_ :: rest) =>
    if "```dart".data.isPrefixOf t then
      match findSplit "```".data (t.drop 7) with
      | some (_, after) => t.take (t.length - after.length) :: scanDartFences fuel after
      | none => scanDartFences fuel rest
    else scanDartFences fuel rest

/-- `Map.prototype.set`: updates the value in place when the key exists
(keeping its position), otherwise appends the new entry. -/
def setEntry (k v : String) : List (String × String) → List (String × String)
  | [] => [(k, v)]
  | (k', v') :: rest =>
    if k' = k then (k', v) :: rest else (k', v') :: setEntry k v rest

/-- `Map.prototype.has`. -/
def hasKey (k : String) (l : List (String × String)) : Bool := l.any (fun e => e.1 = k)

/-- `Map.prototype.get` on an association list. -/
def lookupB (k : String) (l : List (String × String)) : Option String :=
  (l.find? (fun e => e.1 = k)).map (fun e => e.2)

/-- `OpenAIService.extractFileBlocks`: the `main.dart` block (first
occurrence) is reserved first; then the screen-, widget-, model-,
service-suffixed and generic dart patterns are scanned over the whole
text in that order, each match `set` into the map (skipping a
`main.dart` capture when already present).  If no block at all was
found, every comment-less fenced dart block is captured under a name
inferred from its content.  `extractFileBlocksPrimary` is the
comment-tagged scan (steps 1 and 2). -/
def extractFileBlocksPrimary (text : String) : List (String × String) :=
  let t := text.data
  let mainM := (scanFences .mainK t.length t).head?
  let b0 : List (String × String) :=
    match mainM with
    | some (_, mt) => [("main.dart", extractCodeContent mt)]
    | none => []
  let scans :=
    scanFences (.suffixK "_screen".data) t.length t ++
    scanFences (.suffixK "_widget".data) t.length t ++
    scanFences (.suffixK "_model".data) t.length t ++
    scanFences (.suffixK "_service".data) t.length t ++
    scanFences .genericK t.length t
  scans.foldl (fun b e =>
    let fns := String.mk e.1
    if fns = "main.dart" && hasKey "main.dart" b then b
    else setEntry fns (extractCodeContent e.2) b) b0

/-- The comment-less generic fallback of `extractFileBlocks` (step 3 of
the extraction algorithm): every fenced dart block captured under an
inferred name, indexed in order. -/
def extractFileBlocksGeneric (text : String) : List (String × String) :=
  let t := text.data
  (((scanDartFences t.length t).map extractCodeContent).foldl
    (fun st content =>
      (st.1 + 1, setEntry (inferFileNameFromContent content st.1) content st.2))
    ((0 : Nat), ([] : List (String × String)))).2

def extractFileBlocks (text : String) : List (String × String) :=
  let b := extractFileBlocksPrimary text
  if b.isEmpty then extractFileBlocksGeneric text
  else b

/-! ## Block classification (`OpenAIService.processCodeBlocks`) -/

/-- The typed response bundle (`ProcessedResponse`): artifact lists are
(name, code) pairs in order of discovery, plus the optional `main.dart`
bootstrap code. -/
structure Bundle where
  screens : List (String × String)
  widgets : List (String × String)
  models : List (String × String)
  services : List (String × String)
  mainApp : Option String
deriving DecidableEq

/-- The empty bundle the classifier starts from. -/
def emptyBundle : Bundle := ⟨[], [], [], [], none⟩

/-- One classification step of `processCodeBlocks` for a non-`main.dart`
file: file-name markers first (screen/page, widget, model,
service/provider), then content signatures; a block matching nothing is
recorded but contributes to no category. -/
def classifyStep (fileName content : String) (b : Bundle) : Bundle :=
  if strContains fileName "_screen" || strContains fileName "page" then
    { b with screens := b.screens ++ [(replaceFirstStr ".dart" "" fileName, content)] }
  else if strContains fileName "_widget"
      || (strContains fileName "widget" && !strContains fileName "screen") then
    { b with widgets := b.widgets ++ [(replaceFirstStr ".dart" "" fileName, content)] }
  else if strContains fileName "_model" || strContains fileName "model" then
    { b with models := b.models ++ [(replaceFirstStr ".dart" "" fileName, content)] }
  else if strContains fileName "_service" || strContains fileName "service"
      || strContains fileName "provider" then
    { b with services := b.services ++ [(replaceFirstStr ".dart" "" fileName, content)] }
  else if strContains content "StatefulWidget" || strContains content "StatelessWidget" then
    if strContains content "Screen" || strContains content "Page" then
      { b with screens := b.screens ++ [(replaceFirstStr ".dart" "" fileName, content)] }
    else
      { b with widgets := b.widgets ++ [(replaceFirstStr ".dart" "" fileName, content)] }
  else if strContains content "class" && !strContains content "extends" then
    { b with models := b.models ++ [(replaceFirstStr ".dart" "" fileName, content)] }
  else if strContains content "Service" || strContains content "Provider"
      || strContains content "Repository" then
    { b with services := b.services ++ [(replaceFirstStr ".dart" "" fileName, content)] }
  else b

/-- The classification loop of `processCodeBlocks`: every file name in
`processed` (the `processedFiles` map) is skipped, `main.dart` is
skipped, every other block is classified once and marked processed. -/
def processBlocksLoop : List (String × String) → List String → Bundle → Bundle
  | [], _, b => b
  | (fn, content) :: rest, processed, b =>
    if fn ∈ processed then processBlocksLoop rest processed b
    else if fn = "main.dart" then processBlocksLoop rest processed b
    else processBlocksLoop rest (fn :: processed) (classifyStep fn content b)

/-- `OpenAIService.processCodeBlocks`: reserves a non-empty `main.dart`
entry as the bootstrap first, then classifies the remaining blocks. -/
def processCodeBlocks (blocks : List (String × String)) : Bundle :=
  match lookupB "main.dart" blocks with
  | some code =>
    if code ≠ "" then
      processBlocksLoop blocks ["main.dart"] { emptyBundle with mainApp := some code }
    else processBlocksLoop blocks [] emptyBundle
  | none => processBlocksLoop blocks [] emptyBundle

/-! ## Entry-point synthesis (`OpenAIService.generateMainApp`) -/

/-- `OpenAIService.toSnakeCase`: underscore before each capital,
lowercase, strip one leading underscore. -/
def svcToSnakeCase (text : String) : String :=
  let s1 := (text.data.map (fun c => if 'A' ≤ c && c ≤ 'Z' then ['_', c] else [c])).flatten
  let s2 := s1.map Char.toLower
  String.mk (match s2 with
    | '_' :: r => r
    | r => r)

/-- Capitalization of one word in `OpenAIService.toPascalCase`
(`charAt(0).toUpperCase() + slice(1)`). -/
def svcCap (w : String) : String :=
  match w.data with
  | [] => ""
  | c :: r => String.mk (c.toUpper :: r)

/-- `OpenAIService.toPascalCase`: empty for a falsy input, else split on
underscores, capitalize each word, join. -/
def svcToPascalCase (text : String) : String :=
  if text = "" then ""
  else String.join ((jsSplitChar '_' text.data).map (fun w => svcCap (String.mk w)))

/-- The `main.dart` template of `generateMainApp` with its two holes
(the home-screen import line and the home widget expression). -/
def mainAppTemplate (imp widget : String) : String :=
  "import 'package:flutter/material.dart';\n" ++ imp ++
  "\n\nvoid main() \x7b\n  runApp(const MyApp());\n\x7d\n\nclass MyApp extends StatelessWidget \x7b\n  const MyApp(\x7bKey? key\x7d) : super(key: key);\n\n  @override\n  Widget build(BuildContext context) \x7b\n    return MaterialApp(\n      title: 'Flutter Demo',\n      theme: ThemeData(\n        primarySwatch: Colors.blue,\n        visualDensity: VisualDensity.adaptivePlatformDensity,\n      ),\n      home: " ++
  widget ++ ",\n    );\n  \x7d\n\x7d"

/-- `OpenAIService.generateMainApp`: synthesizes the bootstrap from the
screens sequence — first screen as home view when one exists, otherwise
a static placeholder home view. -/
def generateMainApp (result : Bundle) : String :=
  match result.screens with
  | [] => mainAppTemplate "" "const Center(child: Text(\"Pantalla principal\"))"
  | homeScreen :: _ =>
    let homeScreenName := svcToSnakeCase homeScreen.1
    let className := svcToPascalCase homeScreen.1
    mainAppTemplate ("import '" ++ homeScreenName ++ ".dart';") (className ++ "()")

/-! ## Fallback extraction (`OpenAIService.extractWithExtendedPatterns`) -/

/-- Chain for the alternative `main.dart` regex after `void` + `main`
was located: earliest `runApp`, then earliest closing fence; when no
fence follows a `runApp` occurrence the engine moves to the next one.
Returns the text after the fence. -/
def chainRunClose : Nat → List Char → Option (List Char)
  | 0, _ => none
  | fuel + 1, t =>
    match findSplit "runApp".data t with
    | none => none
    | some (_, afterRun) =>
      match findSplit "```".data afterRun with
      | some (_, rest) => some rest
      | none => chainRunClose fuel afterRun

/-- Chain for the alternative `main.dart` regex after an opening
`dart` fence: earliest `void` + whitespace + `main`, then `runApp`,
then the closing fence, backtracking over `void` occurrences. -/
def chainVoidMain : Nat → List Char → Option (List Char)
  | 0, _ => none
  | fuel + 1, t =>
    match findSplit "void".data t with
    | none => none
    | some (_, afterVoid) =>
      let ws := afterVoid.takeWhile wsChar
      if !ws.isEmpty && "main".data.isPrefixOf (afterVoid.drop ws.length) then
        match chainRunClose afterVoid.length (afterVoid.drop (ws.length + 4)) with
        | some rest => some rest
        | none => chainVoidMain fuel afterVoid
      else chainVoidMain fuel afterVoid

/-- First match of the alternative `main.dart` pattern (a fenced dart
block containing `void main` and `runApp`): returns the match text. -/
def findMainFence : Nat → List Char → Option (List Char)
  | 0, _ => none
  | fuel + 1, t =>
    match findSplit "```dart".data t with
    | none => none
    | some (before, afterFence) =>
      match chainVoidMain afterFence.length afterFence with
      | some rest =>
        some ((t.drop before.length).take (7 + (afterFence.length - rest.length)))
      | none => findMainFence fuel afterFence

/-- The lookahead of the widget/screen class patterns: a fence opening,
or `class` + whitespace + word + whitespace + `extends`. -/
def lookaheadWE (t : List Char) : Bool :=
  "```".data.isPrefixOf t ||
  ("class".data.isPrefixOf t &&
    (let r1 := t.drop 5
     let w1 := r1.takeWhile wsChar
     let r2 := r1.drop w1.length
     let w2 := r2.takeWhile wordChar
     let r3 := r2.drop w2.length
     let w3 := r3.takeWhile wsChar
     !w1.isEmpty && !w2.isEmpty && !w3.isEmpty &&
       "extends".data.isPrefixOf (r3.drop w3.length)))

/-- The lookahead of the model/service class patterns: a fence opening,
or `class` + whitespace + word. -/
def lookaheadM (t : List Char) : Bool :=
  "```".data.isPrefixOf t ||
  ("class".data.isPrefixOf t &&
    (let r1 := t.drop 5
     let w1 := r1.takeWhile wsChar
     !w1.isEmpty && !((r1.drop w1.length).takeWhile wordChar).isEmpty))

/-- Advances through `t` until the lookahead holds; returns the
consumed part and the remaining text at the lookahead position
(the lazy `[\s\S]*?(?=...)` idiom). -/
def findLookahead (la : List Char → Bool) : List Char → Option (List Char × List Char)
  | [] => if la [] then some ([], []) else none
  | c :: rest =>
    if la (c :: rest) then some ([], c :: rest)
    else match findLookahead la rest with
      | some (a, b) => some (c :: a, b)
      | none => none

/-- One attempt of `class\s+(\w+)\s+extends\s+BASE` + lazy text up to
the widget/screen lookahead, at the start of `t`.  Returns (class name,
match text, rest). -/
def matchClassExt (base : List Char) (t : List Char) :
    Option (List Char × List Char × List Char) :=
  if "class".data.isPrefixOf t then
    let r1 := t.drop 5
    let w1 := r1.takeWhile wsChar
    if w1.isEmpty then none else
    let r2 := r1.drop w1.length
    let cn := r2.takeWhile wordChar
    if cn.isEmpty then none else
    let r3 := r2.drop cn.length
    let w3 := r3.takeWhile wsChar
    if w3.isEmpty then none else
    let r4 := r3.drop w3.length
    if "extends".data.isPrefixOf r4 then
      let r5 := r4.drop 7
      let w5 := r5.takeWhile wsChar
      if w5.isEmpty then none else
      let r6 := r5.drop w5.length
      if base.isPrefixOf r6 then
        match findLookahead lookaheadWE (r6.drop base.length) with
        | none => none
        | some (_, rest) => some (cn, t.take (t.length - rest.length), rest)
      else none
    else none
  else none

/-- Global scan of one widget/screen class pattern. -/
def scanClassExt (base : List Char) : Nat → List Char → List (List Char × List Char)
  | 0, _ => []
  | _, [] => []
  | fuel + 1, t@(_ :: rest) =>
    match matchClassExt base t with
    | some (cn, mt, after) => (cn, mt) :: scanClassExt base fuel after
    | none => scanClassExt base fuel rest

/-- One attempt of the model pattern `class\s+(\w+)(?!\s+extends)` +
lazy text up to the model lookahead.  When the full word is followed by
whitespace + `extends`, the greedy group backtracks by one character
(so the capture drops the word's last letter); a one-letter word then
fails. -/
def matchClassModel (t : List Char) : Option (List Char × List Char × List Char) :=
  if "class".data.isPrefixOf t then
    let r1 := t.drop 5
    let w1 := r1.takeWhile wsChar
    if w1.isEmpty then none else
    let r2 := r1.drop w1.length
    let w := r2.takeWhile wordChar
    if w.isEmpty then none else
    let afterW := r2.drop w.length
    let wsA := afterW.takeWhile wsChar
    if !wsA.isEmpty && "extends".data.isPrefixOf (afterW.drop wsA.length) then
      if w.length < 2 then none else
      match findLookahead lookaheadM (r2.drop (w.length - 1)) with
      | none => none
      | some (_, rest) => some (w.take (w.length - 1), t.take (t.length - rest.length), rest)
    else
      match findLookahead lookaheadM afterW with
      | none => none
      | some (_, rest) => some (w, t.take (t.length - rest.length), rest)
  else none

/-- Global scan of the model class pattern. -/
def scanClassModel : Nat → List Char → List (List Char × List Char)
  | 0, _ => []
  | _, [] => []
  | fuel + 1, t@(_ :: rest) =>
    match matchClassModel t with
    | some (cn, mt, after) => (cn, mt) :: scanClassModel fuel after
    | none => scanClassModel fuel rest

/-- Greedy-with-backtracking capture of `\w+(?:Service|Provider|
Repository|Client|Api)` within the word `w`: the longest stem whose
following characters start one of the suffixes.  Returns the capture
and how many characters of `w` it consumed. -/
def svcCapture (w : List Char) : Nat → Option (List Char × Nat)
  | 0 => none
  | j + 1 =>
    let r := w.drop (j + 1)
    if "Service".data.isPrefixOf r then some (w.take (j + 1) ++ "Service".data, j + 8)
    else if "Provider".data.isPrefixOf r then some (w.take (j + 1) ++ "Provider".data, j + 9)
    else if "Repository".data.isPrefixOf r then some (w.take (j + 1) ++ "Repository".data, j + 11)
    else if "Client".data.isPrefixOf r then some (w.take (j + 1) ++ "Client".data, j + 7)
    else if "Api".data.isPrefixOf r then some (w.take (j + 1) ++ "Api".data, j + 4)
    else svcCapture w j

/-- One attempt of the service pattern
`class\s+(\w+(?:Service|Provider|Repository|Client|Api))` + lazy text
up to the model lookahead. -/
def matchClassService (t : List Char) : Option (List Char × List Char × List Char) :=
  if "class".data.isPrefixOf t then
    let r1 := t.drop 5
    let w1 := r1.takeWhile wsChar
    if w1.isEmpty then none else
    let r2 := r1.drop w1.length
    let w := r2.takeWhile wordChar
    if w.isEmpty then none else
    match svcCapture w w.length with
    | none => none
    | some (cn, used) =>
      match findLookahead lookaheadM (r2.drop used) with
      | none => none
      | some (_, rest) => some (cn, t.take (t.length - rest.length), rest)
  else none

/-- Global scan of the service class pattern. -/
def scanClassService : Nat → List Char → List (List Char × List Char)
  | 0, _ => []
  | _, [] => []
  | fuel + 1, t@(_ :: rest) =>
    match matchClassService t with
    | some (cn, mt, after) => (cn, mt) :: scanClassService fuel after
    | none => scanClassService fuel rest

/-- First match of a fenced block (three backticks, optional `dart`,
lazily anything, closing three backticks), as searched by
`extractRelevantCode`. -/
def findFirstFence : Nat → List Char → Option (List Char)
  | 0, _ => none
  | _, [] => none
  | fuel + 1, t@(_ :: rest) =>
    if "```".data.isPrefixOf t then
      let r := t.drop 3
      if "dart".data.isPrefixOf r then
        match findSplit "```".data (r.drop 4) with
        | some (_, after) => some (t.take (t.length - after.length))
        | none =>
          match findSplit "```".data r with
          | some (_, after) => some (t.take (t.length - after.length))
          | none => findFirstFence fuel rest
      else
        match findSplit "```".data r with
        | some (_, after) => some (t.take (t.length - after.length))
        | none => findFirstFence fuel rest
    else findFirstFence fuel rest

/-- `OpenAIService.extractRelevantCode`: the nearest fenced block when
one exists, else the text from the first `import ` on, else the whole
text. -/
def extractRelevantCode (text : String) : String :=
  let t := text.data
  match findFirstFence t.length t with
  | some block => extractCodeContent block
  | none =>
    match findSplit "import ".data t with
    | some (before, _) => String.mk (t.drop before.length)
    | none => text

/-- `OpenAIService.extractWidgetsAndScreens`: class definitions
extending `StatelessWidget` or `StatefulWidget`, classified into
(screens, widgets) by a `Screen`/`Page` substring of the class name. -/
def extractWidgetsAndScreens (text : String) :
    List (String × String) × List (String × String) :=
  let t := text.data
  let widgetBlocks :=
    scanClassExt "StatelessWidget".data t.length t ++
    scanClassExt "StatefulWidget".data t.length t
  widgetBlocks.foldl
    (fun sw e =>
      let className := String.mk e.1
      let code := extractRelevantCode (String.mk e.2)
      if strContains className "Screen" || strContains className "Page" then
        (sw.1 ++ [(svcToSnakeCase className, code)], sw.2)
      else
        (sw.1, sw.2 ++ [(svcToSnakeCase className, code)]))
    ([], [])

/-- `OpenAIService.extractModels`: class definitions without an
inheritance clause, kept when the block mentions `final`, `const` or
`constructor`. -/
def extractModels (text : String) : List (String × String) :=
  let t := text.data
  (scanClassModel t.length t).foldl
    (fun ms e =>
      let blockText := String.mk e.2
      if strContains blockText "final" || strContains blockText "const"
          || strContains blockText "constructor" then
        ms ++ [(svcToSnakeCase (String.mk e.1), extractRelevantCode blockText)]
      else ms)
    []

/-- `OpenAIService.extractServices`: class names ending in a service
naming suffix. -/
def extractServices (text : String) : List (String × String) :=
  let t := text.data
  (scanClassService t.length t).foldl
    (fun ss e =>
      ss ++ [(svcToSnakeCase (String.mk e.1), extractRelevantCode (String.mk e.2))])
    []

/-- Leading part of the placeholder error widget's dart code, up to the
embedded response excerpt (`OpenAIService.createErrorWidget`). -/
def errorWidgetPre : String :=
  "\n        import 'package:flutter/material.dart';\n        \n        class ErrorWidget extends StatelessWidget \x7b\n          const ErrorWidget(\x7bKey? key\x7d) : super(key: key);\n          \n          @override\n          Widget build(BuildContext context) \x7b\n            return Scaffold(\n              appBar: AppBar(\n                title: const Text('Error de Generación'),\n              ),\n              body: Padding(\n                padding: const EdgeInsets.all(16.0),\n                child: Column(\n                  crossAxisAlignment: CrossAxisAlignment.start,\n                  children: [\n                    const Text(\n                      'Error al generar código',\n                      style: TextStyle(fontSize: 20, fontWeight: FontWeight.bold),\n                    ),\n                    const SizedBox(height: 16),\n                    const Text(\n                      'No se pudo procesar la respuesta de la IA. Por favor intenta con otra captura o contacta al soporte.',\n                    ),\n                    const SizedBox(height: 16),\n                    Container(\n                      padding: const EdgeInsets.all(8),\n                      color: Colors.grey[200],\n                      child: Text(\n                        '"

/-- Trailing part of the placeholder error widget's dart code, after
the embedded response excerpt. -/
def errorWidgetPost : String :=
  "...',\n                        style: const TextStyle(fontFamily: 'monospace', fontSize: 12),\n                      ),\n                    )\n                  ],\n                ),\n              ),\n            );\n          \x7d\n        \x7d\n      "

/-- The artifact pushed by `OpenAIService.createErrorWidget`: name
`error_widget`, code embedding the first 500 characters of the raw
response (`responseText.substring(0, 500)`). -/
def errorWidgetEntry (responseText : String) : String × String :=
  ("error_widget", errorWidgetPre ++ responseText.take 500 ++ errorWidgetPost)

/-- `OpenAIService.extractWithExtendedPatterns`: the looser
content-anchored extraction — alternative `main.dart`, widget/screen
classes, models, services; when all four category lists stay empty the
placeholder error widget is pushed; a missing bootstrap is generated. -/
def extractWithExtendedPatterns (text : String) : Bundle :=
  let t := text.data
  let mainApp := (findMainFence t.length t).map extractCodeContent
  let sw := extractWidgetsAndScreens text
  let screens := sw.1
  let widgets := sw.2
  let models := extractModels text
  let services := extractServices text
  let widgets2 :=
    if screens.isEmpty && widgets.isEmpty && models.isEmpty && services.isEmpty then
      widgets ++ [errorWidgetEntry text]
    else widgets
  let mainApp2 :=
    match mainApp with
    | some c => some c
    | none => some (generateMainApp ⟨screens, widgets2, models, services, none⟩)
  ⟨screens, widgets2, models, services, mainApp2⟩

/-- `OpenAIService.processCode`: primary extraction + classification,
falling back to `extractWithExtendedPatterns` when the bundle is fully
empty, and synthesizing a missing bootstrap. -/
def processCode (text : String) : Bundle :=
  let blocks := extractFileBlocks text
  let res := processCodeBlocks blocks
  if res.screens.isEmpty && res.widgets.isEmpty && res.models.isEmpty
      && res.services.isEmpty && res.mainApp.isNone then
    extractWithExtendedPatterns text
  else
    match res.mainApp with
    | some _ => res
    | none => { res with mainApp := some (generateMainApp res) }

/-! ## Navigation synthesis (`AutoNavigationService`) -/

/-- A view record as returned by the external view service: id,
display name, and the parent project's name when present
(`vista.proyecto?.nombre`). -/
structure VistaRec where
  id : String
  nombre : String
  proyecto : Option String
deriving DecidableEq

/-- The per-view detail assembled by `generateNavigationForProject`:
the view plus its fetched element list (opaque element records). -/
structure VistaDetail where
  id : String
  nombre : String
  figuras : List String
  proyecto : Option String
deriving DecidableEq

/-- One derived route of `createNavigationStructure`. -/
structure RouteEntry where
  name : String
  screenName : String
  path : String
  isInitial : Bool
  description : String
  figuraCount : Nat
deriving DecidableEq

/-- The navigation structure: route table plus the single generated
`main.dart` file. -/
structure NavStructure where
  routes : List RouteEntry
  mainApp : String
deriving DecidableEq

/-- `AutoNavigationService.toSnakeCase` step 4: every whitespace run
becomes one underscore (`fuel` bounds the text length). -/
def wsRunsToUnderscore : Nat → List Char → List Char
  | 0, t => t
  | _, [] => []
  | fuel + 1, c :: rest =>
    if wsChar c then '_' :: wsRunsToUnderscore fuel (rest.dropWhile wsChar)
    else c :: wsRunsToUnderscore fuel rest

/-- `AutoNavigationService.toSnakeCase`: underscore before capitals,
lowercase, strip one leading underscore, whitespace runs to
underscores. -/
def navToSnakeCase (text : String) : String :=
  let s1 := (text.data.map (fun c => if 'A' ≤ c && c ≤ 'Z' then ['_', c] else [c])).flatten
  let s2 := s1.map Char.toLower
  let s3 := match s2 with
    | '_' :: r => r
    | r => r
  String.mk (wsRunsToUnderscore s3.length s3)

/-- Separator class of `AutoNavigationService.toPascalCase`'s split
regex (whitespace, underscore, hyphen). -/
def navSepChar (c : Char) : Bool := wsChar c || c = '_' || c = '-'

/-- JavaScript `String.prototype.split` on a one-or-more separator-run
regex: runs of separators split, empty segments kept at the borders
(`fuel` bounds the text length). -/
def splitSepRuns (isSep : Char → Bool) : Nat → List Char → List (List Char)
  | 0, _ => [[]]
  | _, [] => [[]]
  | fuel + 1, c :: rest =>
    if isSep c then [] :: splitSepRuns isSep fuel (rest.dropWhile isSep)
    else match splitSepRuns isSep fuel rest with
      | h :: t => (c :: h) :: t
      | [] => [[c]]

/-- Word capitalization of `AutoNavigationService.toPascalCase`
(`charAt(0).toUpperCase() + slice(1).toLowerCase()`). -/
def navCap : List Char → List Char
  | [] => []
  | c :: r => c.toUpper :: r.map Char.toLower

/-- `AutoNavigationService.toPascalCase`: split on whitespace,
underscore and hyphen runs, capitalize each word, join. -/
def navToPascalCase (text : String) : String :=
  String.mk (((splitSepRuns navSepChar text.data.length text.data).map navCap).flatten)

/-- The ordered keyword list of `determineIfInitial`. -/
def initialPatterns : List String :=
  ["login", "signin", "auth", "welcome", "onboarding",
   "splash", "home", "dashboard", "main", "inicio", "principal"]

/-- `AutoNavigationService.determineIfInitial`: true when the
lowercased view name contains any keyword, otherwise true exactly for
index 0. -/
def determineIfInitial (vista : VistaDetail) (index : Nat) : Bool :=
  let name := jsToLower vista.nombre
  if initialPatterns.any (fun p => strContains name p) then true
  else index == 0

/-- The icon table of `AutoNavigationService.getIconForRoute`, in
insertion order. -/
def iconMap : List (String × String) :=
  [("home", "home"), ("login", "login"), ("register", "person_add"),
   ("profile", "person"), ("settings", "settings"), ("dashboard", "dashboard"),
   ("lista", "list"), ("principal", "home"), ("usuario", "person"),
   ("registro", "person_add")]

/-- `AutoNavigationService.getIconForRoute`: first table entry whose
key the lowercased route name contains, else `pages`. -/
def getIconForRoute (routeName : String) : String :=
  match iconMap.find? (fun kv => strContains (jsToLower routeName) kv.1) with
  | some kv => kv.2
  | none => "pages"

/-- JavaScript `a || b` on an optional string (`undefined` and the
empty string are falsy). -/
def jsOrStr (a : Option String) (b : String) : String :=
  match a with
  | some s => if s = "" then b else s
  | none => b

/-- The route of one view (`createNavigationStructure`'s map body). -/
def routeOf (vista : VistaDetail) (index : Nat) : RouteEntry :=
  { name := navToSnakeCase vista.nombre
    screenName := navToPascalCase vista.nombre ++ "Screen"
    path := "/" ++ navToSnakeCase vista.nombre
    isInitial := determineIfInitial vista index
    description := vista.nombre
    figuraCount := vista.figuras.length }

/-- Index-carrying map over the views (`vistas.map((vista, index) =>
...)`). -/
def buildRoutes : List VistaDetail → Nat → List RouteEntry
  | [], _ => []
  | v :: rest, i => routeOf v i :: buildRoutes rest (i + 1)

/-- `AutoNavigationService.generateSimpleMainApp`: the single
`main.dart` file with routes, navigation helper class and drawer,
rendered from the route table and the project name. -/
def generateSimpleMainApp (routes : List RouteEntry) (projectName : String) : String :=
  let className := navToPascalCase projectName
  let initialRoute :=
    jsOrStr ((routes.find? (fun r => r.isInitial)).map (fun r => r.path))
      (jsOrStr ((routes.head?).map (fun r => r.path)) "/")
  "// lib/main.dart\nimport 'package:flutter/material.dart';\n// Importar todas las pantallas\n" ++
  String.intercalate "\n"
    (routes.map (fun route => "import 'screens/" ++ route.name ++ "_screen.dart';")) ++
  "\n\nvoid main() \x7b\n  runApp(const " ++ className ++ "App());\n\x7d\n\nclass " ++
  className ++ "App extends StatelessWidget \x7b\n  const " ++ className ++
  "App(\x7bsuper.key\x7d);\n\n  @override\n  Widget build(BuildContext context) \x7b\n    return MaterialApp(\n      title: '" ++
  projectName ++
  "',\n      theme: ThemeData(\n        primarySwatch: Colors.blue,\n        visualDensity: VisualDensity.adaptivePlatformDensity,\n      ),\n      initialRoute: '" ++
  initialRoute ++
  "',\n      routes: \x7b\n        // Definir todas las rutas directamente aquí\n" ++
  String.intercalate "\n"
    (routes.map (fun route =>
      "        '" ++ route.path ++ "': (context) => " ++ route.screenName ++ "(),")) ++
  "\n      \x7d,\n      debugShowCheckedModeBanner: false,\n    );\n  \x7d\n\x7d\n\n// Navegación simple - TODO EN UNA CLASE\nclass AppNavigation \x7b\n  // Rutas disponibles\n" ++
  String.intercalate "\n"
    (routes.map (fun route =>
      "  static const String " ++ route.name ++ " = '" ++ route.path ++ "';")) ++
  "\n\n  // Métodos simples para navegar\n  static void goTo(BuildContext context, String route) \x7b\n    Navigator.pushNamed(context, route);\n  \x7d\n\n  static void goBack(BuildContext context) \x7b\n    if (Navigator.canPop(context)) \x7b\n      Navigator.pop(context);\n    \x7d\n  \x7d\n\n  // Lista para el drawer\n  static List<NavigationItem> get allRoutes => [\n" ++
  String.intercalate "\n"
    (routes.map (fun route =>
      "    NavigationItem('" ++ route.description ++ "', " ++ route.name ++
      ", Icons." ++ getIconForRoute route.name ++ "),")) ++
  "\n  ];\n\x7d\n\n// Item simple de navegación\nclass NavigationItem \x7b\n  final String title;\n  final String route;\n  final IconData icon;\n  const NavigationItem(this.title, this.route, this.icon);\n\x7d\n\n// Drawer automático\nclass AppDrawer extends StatelessWidget \x7b\n  const AppDrawer(\x7bsuper.key\x7d);\n\n  @override\n  Widget build(BuildContext context) \x7b\n    return Drawer(\n      child: ListView(\n        padding: EdgeInsets.zero,\n        children: [\n          const DrawerHeader(\n            decoration: BoxDecoration(color: Colors.blue),\n            child: Text(\n              'Navegación',\n              style: TextStyle(color: Colors.white, fontSize: 24),\n            ),\n          ),\n          ...AppNavigation.allRoutes.map((item) => ListTile(\n            leading: Icon(item.icon),\n            title: Text(item.title),\n            onTap: () \x7b\n              Navigator.pop(context);\n              AppNavigation.goTo(context, item.route);\n            \x7d,\n          )),\n        ],\n      ),\n    );\n  \x7d\n\x7d"

/-- `AutoNavigationService.createNavigationStructure`: the route table
and the generated all-in-one `main.dart`
(project name from the first view, `'MyApp'` when falsy). -/
def createNavigationStructure (vistas : List VistaDetail) : NavStructure :=
  let routes := buildRoutes vistas 0
  let projectName := jsOrStr ((vistas.head?).map (fun v => v.proyecto.getD "")) "MyApp"
  { routes, mainApp := generateSimpleMainApp routes projectName }

/-- Environment of `generateNavigationForProject`: resolvability of the
two collaborators, the view service's answer for the project, and the
figure service's per-view answers (each an `Except` for a thrown
error and an `Option` for a null list). -/
structure NavEnv where
  vistaServiceAvailable : Bool
  figuraServiceAvailable : Bool
  findAllVistas : Except String (Option (List VistaRec))
  findFiguras : String → Except String (Option (List String))

/-- Per-view detail fetch: a thrown or null figure list degrades to an
empty list (warning only). -/
def buildVistaDetail (env : NavEnv) (v : VistaRec) : VistaDetail :=
  match env.findFiguras v.id with
  | .ok (some figs) => ⟨v.id, v.nombre, figs, v.proyecto⟩
  | .ok none => ⟨v.id, v.nombre, [], v.proyecto⟩
  | .error _ => ⟨v.id, v.nombre, [], v.proyecto⟩

/-- The body of `generateNavigationForProject` before its enclosing
`try/catch`: collaborator check (throwing `Servicios requeridos no
disponibles`), view fetch, fewer-than-2-views sentinel, detail
assembly, structure creation. -/
def generateNavigationForProjectE (env : NavEnv) : Except String (Option NavStructure) :=
  if !env.vistaServiceAvailable || !env.figuraServiceAvailable then
    .error "Servicios requeridos no disponibles"
  else
    match env.findAllVistas with
    | .error e => .error e
    | .ok none => .ok none
    | .ok (some vistas) =>
      if vistas.length < 2 then .ok none
      else .ok (some (createNavigationStructure (vistas.map (buildVistaDetail env))))

/-- `AutoNavigationService.generateNavigationForProject`: the public
operation — any error thrown inside is caught, logged and turned into
the `null` result. -/
def generateNavigationForProject (env : NavEnv) : Option NavStructure :=
  match generateNavigationForProjectE env with
  | .ok r => r
  | .error _ => none

/-! ## Batch element persistence (`createFiguresFromUIElements`) -/

/-- The per-element loop of `createFiguresFromUIElements`: a failing
`create` is caught and skipped, a successful one is pushed. -/
def createFiguresLoop {α β : Type} (create : α → Except String β) :
    List α → List β → List β
  | [], acc => acc
  | e :: rest, acc =>
    match create e with
    | .ok f => createFiguresLoop create rest (acc ++ [f])
    | .error _ => createFiguresLoop create rest acc

/-- `OpenAIService.createFiguresFromUIElements`: fails when the figure
service cannot be resolved (rethrown wrapped by the outer catch),
otherwise persists the elements one by one, skipping individual
failures. -/
def createFiguresFromUIElements {α β : Type} (figuraServiceAvailable : Bool)
    (create : α → Except String β) (uiElements : List α) : Except String (List β) :=
  if !figuraServiceAvailable then
    .error "Error al crear figuras: No se pudo obtener el servicio de figuras"
  else .ok (createFiguresLoop create uiElements [])

/-! ## Verification vocabulary -/

/-- The `.dart` extension as a character list. -/
def dartSuffix : List Char := ".dart".data

/-- A well-formed extractor key: a stem without dots followed by the
`.dart` extension.  Every file name the extractor can produce has this
shape. -/
def GoodKeyL (k : List Char) : Prop :=
  ∃ m, k = m ++ dartSuffix ∧ ∀ c ∈ m, c ≠ '.'

/-- `GoodKeyL` on a string. -/
def GoodKey (s : String) : Prop := GoodKeyL s.data

/-- All artifact names of a bundle, across the four categories. -/
def bundleNames (b : Bundle) : List String :=
  b.screens.map Prod.fst ++ b.widgets.map Prod.fst ++
    b.models.map Prod.fst ++ b.services.map Prod.fst

/-! ## Helper lemmas -/

theorem goodKeyL_mk {l : List Char} (h : GoodKeyL l) : GoodKey (String.mk l) := h

theorem jsSplitComma_head :
    ∀ l : List Char, ∃ t, jsSplitComma l = l.takeWhile (fun c => c ≠ ',') :: t := by
  intro l
  induction l with
  | nil => exact ⟨[], rfl⟩
  | cons c rest ih =>
    by_cases hc : c = ','
    · subst hc
      refine ⟨jsSplitComma rest, ?_⟩
      simp [jsSplitComma, jsSplitChar, List.takeWhile]
    · obtain ⟨t, ht⟩ := ih
      refine ⟨t, ?_⟩
      unfold jsSplitComma at ht
      simp [jsSplitComma, jsSplitChar, hc, ht, List.takeWhile]

theorem jsSplitComma_append (post : List Char) :
    ∀ pre : List Char, (∀ c ∈ pre, c ≠ ',') →
      jsSplitComma (pre ++ ',' :: post) = pre :: jsSplitComma post := by
  intro pre
  induction pre with
  | nil => intro _; simp [jsSplitComma, jsSplitChar]
  | cons c pre' ih =>
    intro h
    have hc : c ≠ ',' := h c (by simp)
    have := ih (fun x hx => h x (by simp [hx]))
    unfold jsSplitComma at this ⊢
    simp [jsSplitChar, hc, this]

theorem jsSplitComma_no_comma :
    ∀ l : List Char, (∀ c ∈ l, c ≠ ',') → jsSplitComma l = [l] := by
  intro l
  induction l with
  | nil => intro _; rfl
  | cons c rest ih =>
    intro h
    have hc : c ≠ ',' := h c (by simp)
    have := ih (fun x hx => h x (by simp [hx]))
    unfold jsSplitComma at this ⊢
    simp [jsSplitChar, hc, this]

theorem findSplit_comma_none :
    ∀ l : List Char, (findSplit ",".data l).isSome = false → ∀ c ∈ l, c ≠ ',' := by
  intro l
  induction l with
  | nil => simp
  | cons c rest ih =>
    intro h x hx
    rw [List.mem_cons] at hx
    rw [findSplit] at h
    by_cases hc : c = ','
    · exfalso
      subst hc
      have hpre : (",".data).isPrefixOf (',' :: rest) = true := by
        simp [List.isPrefixOf]
      rw [hpre] at h
      simp at h
    · have hpre : (",".data).isPrefixOf (c :: rest) = false := by
        simp [List.isPrefixOf]
        intro h'
        exact hc h'.symm
      rw [hpre] at h
      simp only [Bool.if_false_left, Bool.if_true_left] at h
      rcases hx with hx | hx
      · subst hx; exact hc
      · rcases h' : findSplit ",".data rest with _ | ⟨a, b⟩
        · exact ih (by simp [h']) x hx
        · rw [h'] at h; simp at h

theorem strContains_comma_false {s : String} (h : strContains s "," = false) :
    ∀ c ∈ s.data, c ≠ ',' :=
  findSplit_comma_none s.data h

theorem createFiguresLoop_eq {α β : Type} (create : α → Except String β) :
    ∀ (l : List α) (acc : List β),
      createFiguresLoop create l acc
        = acc ++ l.filterMap (fun e => (create e).toOption) := by
  intro l
  induction l with
  | nil => intro acc; simp [createFiguresLoop]
  | cons e rest ih =>
    intro acc
    cases h : create e with
    | ok f => simp [createFiguresLoop, h, ih, Except.toOption]
    | error err => simp [createFiguresLoop, h, ih, Except.toOption]

theorem buildRoutes_getElem :
    ∀ (vistas : List VistaDetail) (k i : Nat),
      (buildRoutes vistas k)[i]? = (vistas[i]?).map (fun v => routeOf v (k + i)) := by
  intro vistas
  induction vistas with
  | nil => intro k i; simp [buildRoutes]
  | cons v rest ih =>
    intro k i
    cases i with
    | zero => simp [buildRoutes]
    | succ j =>
      simp only [buildRoutes, List.getElem?_cons_succ]
      rw [ih (k + 1) j]
      have h : k + 1 + j = k + (j + 1) := by omega
      rw [h]

theorem determineIfInitial_eq (v : VistaDetail) (i : Nat) :
    determineIfInitial v i
      = (initialPatterns.any (fun p => strContains (jsToLower v.nombre) p) || (i == 0)) := by
  rw [determineIfInitial]
  by_cases h : initialPatterns.any (fun p => strContains (jsToLower v.nombre) p) = true
  · simp [h]
  · simp only [Bool.not_eq_true] at h
    simp [h]

theorem ewep_screens (text : String) :
    (extractWithExtendedPatterns text).screens = (extractWidgetsAndScreens text).1 := rfl

theorem ewep_models (text : String) :
    (extractWithExtendedPatterns text).models = extractModels text := rfl

theorem ewep_services (text : String) :
    (extractWithExtendedPatterns text).services = extractServices text := rfl

theorem ewep_widgets (text : String) :
    (extractWithExtendedPatterns text).widgets =
      (if (extractWidgetsAndScreens text).1.isEmpty && (extractWidgetsAndScreens text).2.isEmpty
          && (extractModels text).isEmpty && (extractServices text).isEmpty
       then (extractWidgetsAndScreens text).2 ++ [errorWidgetEntry text]
       else (extractWidgetsAndScreens text).2) := rfl

theorem matchName_good {kind : NameKind} {fn r : List Char} {t : List Char}
    (h : matchName kind t = some (fn, r)) : GoodKeyL fn := by
  cases kind with
  | mainK =>
    rw [matchName] at h
    split at h
    · simp only [Option.some.injEq, Prod.mk.injEq] at h
      exact ⟨"main".data, by rw [← h.1]; decide, by decide⟩
    · cases h
  | suffixK suf =>
    rw [matchName] at h
    split at h
    · simp only [Option.some.injEq, Prod.mk.injEq] at h
      refine ⟨t.takeWhile nameCharS, h.1.symm, ?_⟩
      intro c hc hdot
      have := List.mem_takeWhile_imp hc
      subst hdot
      simp [nameCharS, wordChar] at this
    · cases h
  | genericK =>
    rw [matchName] at h
    split at h
    · simp only [Option.some.injEq, Prod.mk.injEq] at h
      refine ⟨t.takeWhile nameCharG, h.1.symm, ?_⟩
      intro c hc hdot
      have := List.mem_takeWhile_imp hc
      subst hdot
      simp [nameCharG, wordChar] at this
    · cases h

theorem matchFenceAt_good {kind : NameKind} {fn mt rest : List Char} {t : List Char}
    (h : matchFenceAt kind t = some (fn, mt, rest)) : GoodKeyL fn := by
  rw [matchFenceAt] at h
  split at h
  · dsimp only at h
    split at h
    · split at h
      · cases h
      · next fn' r3 hname =>
        split at h
        · cases h
        · simp only [Option.some.injEq, Prod.mk.injEq] at h
          exact h.1 ▸ matchName_good hname
    · cases h
  · cases h

theorem scanFences_good {kind : NameKind} :
    ∀ (fuel : Nat) (t : List Char), ∀ e ∈ scanFences kind fuel t, GoodKeyL e.1 := by
  intro fuel
  induction fuel with
  | zero => intro t e he; simp [scanFences] at he
  | succ n ih =>
    intro t e he
    cases t with
    | nil => simp [scanFences] at he
    | cons c rest =>
      rw [scanFences] at he
      rcases hm : matchFenceAt kind (c :: rest) with _ | ⟨fn, mt, after⟩
      · rw [hm] at he
        exact ih rest e he
      · rw [hm] at he
        rcases List.mem_cons.mp he with he | he
        · rw [he]
          exact matchFenceAt_good hm
        · exact ih after e he

theorem digitChar_ne_dot (n : Nat) : Char.ofNat (48 + n % 10) ≠ '.' := by
  have h : n % 10 < 10 := Nat.mod_lt _ (by omega)
  set k := n % 10 with hk
  interval_cases k <;> decide

theorem natDecAux_ne_dot :
    ∀ (fuel n : Nat) (acc : List Char), (∀ c ∈ acc, c ≠ '.') →
      ∀ c ∈ natDecAux fuel n acc, c ≠ '.' := by
  intro fuel
  induction fuel with
  | zero =>
    intro n acc hacc c hc
    rw [natDecAux] at hc
    rcases List.mem_cons.mp hc with hc | hc
    · exact hc ▸ digitChar_ne_dot n
    · exact hacc c hc
  | succ m ih =>
    intro n acc hacc c hc
    rw [natDecAux] at hc
    split at hc
    · rcases List.mem_cons.mp hc with hc | hc
      · exact hc ▸ digitChar_ne_dot n
      · exact hacc c hc
    · refine ih (n / 10) _ ?_ c hc
      intro x hx
      rcases List.mem_cons.mp hx with hx | hx
      · exact hx ▸ digitChar_ne_dot n
      · exact hacc x hx

theorem natDec_ne_dot (n : Nat) : ∀ c ∈ natDec n, c ≠ '.' :=
  natDecAux_ne_dot n n [] (by simp)

theorem inferFileName_good (content : String) (i : Nat) :
    GoodKey (inferFileNameFromContent content i) := by
  have hpre : ∀ (pre : List Char), (∀ c ∈ pre, c ≠ '.') →
      GoodKey (String.mk (pre ++ natDec i ++ ".dart".data)) := by
    intro pre hp
    refine ⟨pre ++ natDec i, ?_, ?_⟩
    · show pre ++ natDec i ++ ".dart".data = pre ++ natDec i ++ dartSuffix
      rfl
    · intro c hc
      rcases List.mem_append.mp hc with hc | hc
      · exact hp c hc
      · exact natDec_ne_dot i c hc
  rw [inferFileNameFromContent]
  split_ifs
  · exact ⟨"main".data, by decide, by decide⟩
  · exact hpre "screen_".data (by decide)
  · exact hpre "widget_".data (by decide)
  · exact hpre "model_".data (by decide)
  · exact hpre "service_".data (by decide)
  · exact hpre "file_".data (by decide)

theorem setEntry_keys_good {l : List (String × String)} {k v : String}
    (hl : ∀ k' ∈ l.map Prod.fst, GoodKey k') (hk : GoodKey k) :
    ∀ k' ∈ (setEntry k v l).map Prod.fst, GoodKey k' := by
  induction l with
  | nil =>
    intro k' hk'
    simp [setEntry] at hk'
    exact hk' ▸ hk
  | cons e rest ih =>
    intro k' hk'
    rw [setEntry] at hk'
    split at hk'
    · simp only [List.map_cons, List.mem_cons] at hk'
      rcases hk' with hk' | hk'
      · exact hk' ▸ hl e.1 (by simp)
      · exact hl k' (by simp only [List.map_cons, List.mem_cons]; exact Or.inr hk')
    · simp only [List.map_cons, List.mem_cons] at hk'
      rcases hk' with hk' | hk'
      · exact hk' ▸ hl e.1 (by simp)
      · exact ih
          (fun x hx => hl x (by simp only [List.map_cons, List.mem_cons]; exact Or.inr hx))
          k' hk'

theorem foldScans_keys_good :
    ∀ (scans : List (List Char × List Char)) (b0 : List (String × String)),
      (∀ k ∈ b0.map Prod.fst, GoodKey k) →
      (∀ e ∈ scans, GoodKeyL e.1) →
      ∀ k ∈ (scans.foldl (fun b e =>
          let fns := String.mk e.1
          if fns = "main.dart" && hasKey "main.dart" b then b
          else setEntry fns (extractCodeContent e.2) b) b0).map Prod.fst,
        GoodKey k := by
  intro scans
  induction scans with
  | nil => intro b0 hb _ k hk; exact hb k hk
  | cons e rest ih =>
    intro b0 hb hs k hk
    rw [List.foldl_cons] at hk
    refine ih _ ?_ (fun x hx => hs x (by simp [hx])) k hk
    dsimp only
    split
    · exact hb
    · exact setEntry_keys_good hb (goodKeyL_mk (hs e (by simp)))

theorem foldGeneric_keys_good :
    ∀ (contents : List String) (st : Nat × List (String × String)),
      (∀ k ∈ st.2.map Prod.fst, GoodKey k) →
      ∀ k ∈ (contents.foldl (fun st content =>
          (st.1 + 1, setEntry (inferFileNameFromContent content st.1) content st.2))
          st).2.map Prod.fst,
        GoodKey k := by
  intro contents
  induction contents with
  | nil => intro st hst k hk; exact hst k hk
  | cons c rest ih =>
    intro st hst k hk
    rw [List.foldl_cons] at hk
    exact ih _ (setEntry_keys_good hst (inferFileName_good c st.1)) k hk

theorem extractFileBlocksPrimary_keys_good (text : String) :
    ∀ k ∈ (extractFileBlocksPrimary text).map Prod.fst, GoodKey k := by
  rw [extractFileBlocksPrimary]
  refine foldScans_keys_good _ _ ?_ ?_
  · rcases h : (scanFences .mainK text.data.length text.data).head? with _ | ⟨fn, mt⟩
    · simp
    · intro k hk
      simp at hk
      exact hk ▸ ⟨"main".data, by decide, by decide⟩
  · intro e he
    rcases List.mem_append.mp he with he | he
    · rcases List.mem_append.mp he with he | he
      · rcases List.mem_append.mp he with he | he
        · rcases List.mem_append.mp he with he | he
          · exact scanFences_good _ _ e he
          · exact scanFences_good _ _ e he
        · exact scanFences_good _ _ e he
      · exact scanFences_good _ _ e he
    · exact scanFences_good _ _ e he

theorem extractFileBlocks_keys_good (text : String) :
    ∀ k ∈ (extractFileBlocks text).map Prod.fst, GoodKey k := by
  rw [extractFileBlocks]
  split
  · rw [extractFileBlocksGeneric]
    exact foldGeneric_keys_good _ _ (by simp)
  · exact extractFileBlocksPrimary_keys_good text

theorem replaceFirst_dart_append {m : List Char} (hm : ∀ c ∈ m, c ≠ '.') :
    replaceFirstList ".dart".data [] (m ++ ".dart".data) = m := by
  induction m with
  | nil => rfl
  | cons c m' ih =>
    have hc : c ≠ '.' := hm c (by simp)
    rw [List.cons_append, replaceFirstList]
    rw [if_neg ?hneg]
    case hneg =>
      intro hp
      have h1 : (('.' : Char) == c && "dart".data.isPrefixOf (m' ++ ".dart".data)) = true := hp
      have h2 : ('.' : Char) = c := by
        have := (Bool.and_eq_true _ _).mp h1
        exact beq_iff_eq.mp this.1
      exact hc h2.symm
    rw [ih (fun x hx => hm x (by simp [hx]))]

theorem goodKey_replaceFirst {k : String} (h : GoodKey k) :
    ∃ m, k.data = m ++ dartSuffix ∧ (∀ c ∈ m, c ≠ '.') ∧
      (replaceFirstStr ".dart" "" k).data = m := by
  obtain ⟨m, hm, hd⟩ := h
  refine ⟨m, hm, hd, ?_⟩
  show (replaceFirstList ".dart".data "".data k.data) = m
  rw [hm]
  exact replaceFirst_dart_append hd

theorem goodKey_name_inj {k1 k2 : String} (h1 : GoodKey k1) (h2 : GoodKey k2)
    (h : replaceFirstStr ".dart" "" k1 = replaceFirstStr ".dart" "" k2) : k1 = k2 := by
  obtain ⟨m1, hm1, _, hr1⟩ := goodKey_replaceFirst h1
  obtain ⟨m2, hm2, _, hr2⟩ := goodKey_replaceFirst h2
  have hmm : m1 = m2 := by rw [← hr1, ← hr2, h]
  have hdata : k1.data = k2.data := by rw [hm1, hm2, hmm]
  cases k1
  cases k2
  exact congrArg String.mk hdata

theorem bundleNames_classifyStep (fn c : String) (b : Bundle) :
    ∀ n ∈ bundleNames (classifyStep fn c b),
      n ∈ bundleNames b ∨ n = replaceFirstStr ".dart" "" fn := by
  intro n hn
  rw [classifyStep] at hn
  split_ifs at hn <;>
    simp only [bundleNames, List.map_append, List.map_cons, List.map_nil,
      List.mem_append, List.mem_cons, List.not_mem_nil, or_false] at hn ⊢ <;>
    tauto

theorem nodup_add_screen (b : Bundle) (nm cd : String)
    (hnd : (bundleNames b).Nodup) (hx : nm ∉ bundleNames b) :
    (bundleNames { b with screens := b.screens ++ [(nm, cd)] }).Nodup := by
  have e : bundleNames { b with screens := b.screens ++ [(nm, cd)] }
      = b.screens.map Prod.fst ++ nm :: (b.widgets.map Prod.fst ++
          (b.models.map Prod.fst ++ b.services.map Prod.fst)) := by
    simp [bundleNames]
  rw [e]
  refine List.nodup_middle.mpr (List.nodup_cons.mpr ⟨?_, ?_⟩)
  · simpa [bundleNames, or_assoc] using hx
  · simpa [bundleNames] using hnd

theorem nodup_add_widget (b : Bundle) (nm cd : String)
    (hnd : (bundleNames b).Nodup) (hx : nm ∉ bundleNames b) :
    (bundleNames { b with widgets := b.widgets ++ [(nm, cd)] }).Nodup := by
  have e : bundleNames { b with widgets := b.widgets ++ [(nm, cd)] }
      = (b.screens.map Prod.fst ++ b.widgets.map Prod.fst) ++ nm ::
          (b.models.map Prod.fst ++ b.services.map Prod.fst) := by
    simp [bundleNames]
  rw [e]
  refine List.nodup_middle.mpr (List.nodup_cons.mpr ⟨?_, ?_⟩)
  · simpa [bundleNames, or_assoc] using hx
  · simpa [bundleNames] using hnd

theorem nodup_add_model (b : Bundle) (nm cd : String)
    (hnd : (bundleNames b).Nodup) (hx : nm ∉ bundleNames b) :
    (bundleNames { b with models := b.models ++ [(nm, cd)] }).Nodup := by
  have e : bundleNames { b with models := b.models ++ [(nm, cd)] }
      = (b.screens.map Prod.fst ++ b.widgets.map Prod.fst ++ b.models.map Prod.fst)
          ++ nm :: b.services.map Prod.fst := by
    simp [bundleNames]
  rw [e]
  refine List.nodup_middle.mpr (List.nodup_cons.mpr ⟨?_, ?_⟩)
  · simpa [bundleNames, or_assoc] using hx
  · simpa [bundleNames] using hnd

theorem nodup_add_service (b : Bundle) (nm cd : String)
    (hnd : (bundleNames b).Nodup) (hx : nm ∉ bundleNames b) :
    (bundleNames { b with services := b.services ++ [(nm, cd)] }).Nodup := by
  have e : bundleNames { b with services := b.services ++ [(nm, cd)] }
      = (b.screens.map Prod.fst ++ b.widgets.map Prod.fst ++ b.models.map Prod.fst
          ++ b.services.map Prod.fst) ++ nm :: [] := by
    simp [bundleNames]
  rw [e]
  refine List.nodup_middle.mpr (List.nodup_cons.mpr ⟨?_, ?_⟩)
  · simpa [bundleNames, or_assoc] using hx
  · simpa [bundleNames] using hnd

theorem bundleNames_classifyStep_nodup (fn c : String) (b : Bundle)
    (hnd : (bundleNames b).Nodup)
    (hx : replaceFirstStr ".dart" "" fn ∉ bundleNames b) :
    (bundleNames (classifyStep fn c b)).Nodup := by
  rw [classifyStep]
  split_ifs <;>
    first
      | exact nodup_add_screen b _ c hnd hx
      | exact nodup_add_widget b _ c hnd hx
      | exact nodup_add_model b _ c hnd hx
      | exact nodup_add_service b _ c hnd hx
      | exact hnd

theorem processBlocksLoop_nodup :
    ∀ (blocks : List (String × String)) (processed : List String) (b : Bundle),
      (∀ k ∈ blocks.map Prod.fst, GoodKey k) →
      (∀ n ∈ bundleNames b, ∃ k, GoodKey k ∧ k ∈ processed ∧
        replaceFirstStr ".dart" "" k = n) →
      (bundleNames b).Nodup →
      (bundleNames (processBlocksLoop blocks processed b)).Nodup := by
  intro blocks
  induction blocks with
  | nil => intro processed b _ _ hnd; exact hnd
  | cons e rest ih =>
    intro processed b hkeys hinv hnd
    obtain ⟨fn, content⟩ := e
    rw [processBlocksLoop]
    split_ifs with h1 h2
    · exact ih processed b (fun k hk => hkeys k (by simp [hk])) hinv hnd
    · exact ih processed b (fun k hk => hkeys k (by simp [hk])) hinv hnd
    · have hgood : GoodKey fn := hkeys fn (by simp)
      have hx : replaceFirstStr ".dart" "" fn ∉ bundleNames b := by
        intro hmem
        obtain ⟨k, hkg, hkp, hkn⟩ := hinv _ hmem
        exact h1 (goodKey_name_inj hkg hgood hkn ▸ hkp)
      refine ih (fn :: processed) (classifyStep fn content b)
        (fun k hk => hkeys k (by simp [hk])) ?_
        (bundleNames_classifyStep_nodup fn content b hnd hx)
      intro n hn
      rcases bundleNames_classifyStep fn content b n hn with hn' | hn'
      · obtain ⟨k, hkg, hkp, hkn⟩ := hinv n hn'
        exact ⟨k, hkg, by simp [hkp], hkn⟩
      · exact ⟨fn, hgood, by simp, hn'.symm⟩

theorem processCodeBlocks_nodup (blocks : List (String × String))
    (hkeys : ∀ k ∈ blocks.map Prod.fst, GoodKey k) :
    (bundleNames (processCodeBlocks blocks)).Nodup := by
  rw [processCodeBlocks]
  have hinv0 : ∀ (processed : List String),
      ∀ n ∈ bundleNames emptyBundle, ∃ k, GoodKey k ∧ k ∈ processed ∧
        replaceFirstStr ".dart" "" k = n := by
    intro processed n hn
    simp [bundleNames, emptyBundle] at hn
  have hnd0 : (bundleNames emptyBundle).Nodup := by simp [bundleNames, emptyBundle]
  split
  · split
    · refine processBlocksLoop_nodup blocks ["main.dart"] _ hkeys ?_ ?_
      · intro n hn
        simp [bundleNames, emptyBundle] at hn
      · simp [bundleNames, emptyBundle]
    · exact processBlocksLoop_nodup blocks [] _ hkeys (hinv0 []) hnd0
  · exact processBlocksLoop_nodup blocks [] _ hkeys (hinv0 []) hnd0

/-! ## Claims -/

/-- Claim C1 counterexample: for views named `Settings`, `Home` (in this
order), `createNavigationStructure` marks BOTH routes initial (not
exactly one), and the route selected as initial by the generator is
`/settings` — view position wins — whereas the claim's keyword rule
demands the sole initial route `home`. -/
theorem claim1_counterexample :
    ((createNavigationStructure
        [⟨"1", "Settings", [], none⟩, ⟨"2", "Home", [], none⟩]).routes.countP
          (fun r => r.isInitial) = 2) ∧
    (((createNavigationStructure
        [⟨"1", "Settings", [], none⟩, ⟨"2", "Home", [], none⟩]).routes.find?
          (fun r => r.isInitial)).map (fun r => r.path) = some "/settings") := by
  constructor
  · decide
  · decide

/-- Claim C1 (amended): a route is marked initial exactly when the
lowercased view name contains one of the keywords or the view is first
in the sequence; consequently the first view is always marked initial
and the route the generator selects as initial (the first marked route)
is always the first view's route, regardless of keywords. -/
theorem claim1_holds (vistas : List VistaDetail) :
    (∀ (i : Nat) (v : VistaDetail), vistas[i]? = some v →
      (((createNavigationStructure vistas).routes[i]?).map (fun r => r.isInitial))
        = some (initialPatterns.any (fun p => strContains (jsToLower v.nombre) p)
            || (i == 0))) ∧
    (vistas ≠ [] →
      (createNavigationStructure vistas).routes.find? (fun r => r.isInitial)
        = (createNavigationStructure vistas).routes.head?) := by
  have hroutes : (createNavigationStructure vistas).routes = buildRoutes vistas 0 := rfl
  constructor
  · intro i v hv
    rw [hroutes, buildRoutes_getElem vistas 0 i, hv, Nat.zero_add]
    show some (routeOf v i).isInitial = _
    show some (determineIfInitial v i) = _
    rw [determineIfInitial_eq]
  · intro hne
    rw [hroutes]
    cases vistas with
    | nil => exact absurd rfl hne
    | cons v rest =>
      have hinit : (routeOf v 0).isInitial = true := by
        show determineIfInitial v 0 = true
        rw [determineIfInitial_eq]
        simp
      simp [buildRoutes, List.find?_cons_of_pos, hinit]

/-- Claim C1 witness: instantiation at the `Settings`, `Home` project —
the effective initial route is the first route, and the second view
(`Home`, matching the `home` keyword) is also marked initial. -/
theorem claim1_witness :
    ((createNavigationStructure
        [⟨"1", "Settings", [], none⟩, ⟨"2", "Home", [], none⟩]).routes.find?
          (fun r => r.isInitial)
      = (createNavigationStructure
        [⟨"1", "Settings", [], none⟩, ⟨"2", "Home", [], none⟩]).routes.head?) ∧
    (((createNavigationStructure
        [⟨"1", "Settings", [], none⟩, ⟨"2", "Home", [], none⟩]).routes[1]?).map
          (fun r => r.isInitial) = some true) := by
  have h := claim1_holds [⟨"1", "Settings", [], none⟩, ⟨"2", "Home", [], none⟩]
  refine ⟨h.2 (by decide), ?_⟩
  have h1 := h.1 1 ⟨"2", "Home", [], none⟩ (by decide)
  rw [h1]
  decide

/-- Claim C2: when the extractor finds zero fenced code blocks, the
pipeline takes the fallback extraction path, whose bundle always holds
at least one artifact; when the fallback's four extraction passes also
find nothing, the widgets list is exactly the placeholder error widget
embedding the first 500 characters of the raw response. -/
theorem claim2_holds (text : String) (h : extractFileBlocks text = []) :
    processCode text = extractWithExtendedPatterns text ∧
    1 ≤ (bundleNames (extractWithExtendedPatterns text)).length ∧
    ((extractWidgetsAndScreens text).1 = [] ∧ (extractWidgetsAndScreens text).2 = [] ∧
      extractModels text = [] ∧ extractServices text = [] →
      (extractWithExtendedPatterns text).widgets = [errorWidgetEntry text]) := by
  refine ⟨?_, ?_, ?_⟩
  · rw [processCode]
    simp [h, processCodeBlocks, lookupB, processBlocksLoop, emptyBundle]
  · rw [bundleNames, ewep_screens, ewep_models, ewep_services, ewep_widgets]
    by_cases hc : ((extractWidgetsAndScreens text).1.isEmpty
        && (extractWidgetsAndScreens text).2.isEmpty
        && (extractModels text).isEmpty && (extractServices text).isEmpty) = true
    · rw [if_pos hc]
      simp only [List.length_append, List.length_map, List.length_cons]
      omega
    · rw [if_neg hc]
      simp only [Bool.and_eq_true, not_and, Bool.not_eq_true] at hc
      simp only [List.length_append, List.length_map]
      rcases h1 : (extractWidgetsAndScreens text).1.isEmpty with _ | _
      · have := List.isEmpty_eq_false.mp h1
        have : 0 < (extractWidgetsAndScreens text).1.length := List.length_pos.mpr this
        omega
      · rcases h2 : (extractWidgetsAndScreens text).2.isEmpty with _ | _
        · have := List.isEmpty_eq_false.mp h2
          have : 0 < (extractWidgetsAndScreens text).2.length := List.length_pos.mpr this
          omega
        · rcases h3 : (extractModels text).isEmpty with _ | _
          · have := List.isEmpty_eq_false.mp h3
            have : 0 < (extractModels text).length := List.length_pos.mpr this
            omega
          · rcases h4 : (extractServices text).isEmpty with _ | _
            · have := List.isEmpty_eq_false.mp h4
              have : 0 < (extractServices text).length := List.length_pos.mpr this
              omega
            · rw [hc ⟨⟨h1, h2⟩, h3⟩] at h4
              exact absurd h4 (by simp)
  · rintro ⟨h1, h2, h3, h4⟩
    rw [ewep_widgets, if_pos (by simp [h1, h2, h3, h4]), h2]
    simp

/-- Claim C2 witness: for the fence-free response `hello` the fallback
path is taken and yields exactly the placeholder error widget. -/
theorem claim2_witness :
    processCode "hello" = extractWithExtendedPatterns "hello" ∧
    (extractWithExtendedPatterns "hello").widgets = [errorWidgetEntry "hello"] :=
  ⟨(claim2_holds "hello" (by decide)).1,
   (claim2_holds "hello" (by decide)).2.2 (by decide)⟩

/-- Claim C3: evaluating the extractor at a response in which the same
file-name comment heads two distinct fenced dart blocks (contents `A`
then `B`) shows the mapping keeps the LAST block's content `B` — the
code's `Map.set` overwrites instead of skipping filenames already
captured, contradicting the documented first-match-wins semantics. -/
theorem claim3_holds :
    extractFileBlocks
      "```dart\n// login_screen.dart\nA\n```\n```dart\n// login_screen.dart\nB\n```"
      = [("login_screen.dart", "B")] := by decide

/-- Claim C4 counterexample: a fence-free response declaring the same
widget class twice routes through the fallback extractor and produces
two screens with the same name `a_screen`. -/
theorem claim4_counterexample :
    ((processCode
        "class AScreen extends StatelessWidget x class AScreen extends StatelessWidget y```").screens.map
          Prod.fst = ["a_screen", "a_screen"]) ∧
    ¬ ((processCode
        "class AScreen extends StatelessWidget x class AScreen extends StatelessWidget y```").screens.map
          Prod.fst).Nodup := by
  constructor
  · decide
  · decide

/-- Claim C4 (amended): the PRIMARY extraction-plus-classification path
does guarantee pairwise-distinct artifact names in every category (its
keys are distinct map keys whose `.dart`-stripped names are injective);
the fallback extractor does not. -/
theorem claim4_holds (text : String) :
    ((processCodeBlocks (extractFileBlocks text)).screens.map Prod.fst).Nodup ∧
    ((processCodeBlocks (extractFileBlocks text)).widgets.map Prod.fst).Nodup ∧
    ((processCodeBlocks (extractFileBlocks text)).models.map Prod.fst).Nodup ∧
    ((processCodeBlocks (extractFileBlocks text)).services.map Prod.fst).Nodup := by
  have h := processCodeBlocks_nodup (extractFileBlocks text)
    (extractFileBlocks_keys_good text)
  simp only [bundleNames, List.nodup_append] at h
  exact ⟨h.1.1.1, h.1.1.2.1, h.1.2.1, h.2.1⟩

/-- Claim C5 counterexample: with the view service unresolvable, the
public navigation-generation operation completes with the `null`
no-navigation sentinel instead of surfacing a dependency error. -/
theorem claim5_counterexample :
    generateNavigationForProject
      ⟨false, true,
        Except.ok (some [⟨"1", "Login", none⟩, ⟨"2", "Home", none⟩]),
        fun _ => Except.ok (some [])⟩ = none := rfl

/-- Claim C5 (amended): when either collaborator is unresolvable the
body does raise the dependency error, but the operation's enclosing
catch swallows it and returns `null` to the caller, indistinguishable
from the no-navigation sentinel. -/
theorem claim5_holds (env : NavEnv)
    (h : env.vistaServiceAvailable = false ∨ env.figuraServiceAvailable = false) :
    generateNavigationForProjectE env = .error "Servicios requeridos no disponibles" ∧
    generateNavigationForProject env = none := by
  have hcond : (!env.vistaServiceAvailable || !env.figuraServiceAvailable) = true := by
    rcases h with h | h <;> simp [h]
  constructor
  · rw [generateNavigationForProjectE, if_pos hcond]
  · rw [generateNavigationForProject, generateNavigationForProjectE, if_pos hcond]

/-- Claim C5 witness: instantiation with the view service missing. -/
theorem claim5_witness :
    generateNavigationForProjectE
      ⟨false, true, Except.ok (some []), fun _ => Except.ok (some [])⟩
      = .error "Servicios requeridos no disponibles" :=
  (claim5_holds ⟨false, true, Except.ok (some []), fun _ => Except.ok (some [])⟩
    (Or.inl rfl)).1

/-- Claim C6: with both collaborators available and fewer than 2 views
fetched (or a null view list), navigation synthesis returns the `null`
sentinel without raising an error and without producing a bundle. -/
theorem claim6_holds (env : NavEnv) (vistasOpt : Option (List VistaRec))
    (h1 : env.vistaServiceAvailable = true) (h2 : env.figuraServiceAvailable = true)
    (h3 : env.findAllVistas = .ok vistasOpt)
    (h4 : vistasOpt = none ∨ ∃ l, vistasOpt = some l ∧ l.length < 2) :
    generateNavigationForProjectE env = .ok none ∧
    generateNavigationForProject env = none := by
  have hcond : (!env.vistaServiceAvailable || !env.figuraServiceAvailable) = false := by
    simp [h1, h2]
  have hE : generateNavigationForProjectE env = .ok none := by
    rw [generateNavigationForProjectE, if_neg (by simp [hcond]), h3]
    rcases h4 with h4 | ⟨l, hl, hlen⟩
    · rw [h4]
    · rw [hl]
      simp [hlen]
  exact ⟨hE, by rw [generateNavigationForProject, hE]⟩

/-- Claim C6 witness: a one-view project yields the sentinel. -/
theorem claim6_witness :
    generateNavigationForProject
      ⟨true, true, Except.ok (some [⟨"1", "Unica", none⟩]), fun _ => Except.ok (some [])⟩
      = none :=
  (claim6_holds
    ⟨true, true, Except.ok (some [⟨"1", "Unica", none⟩]), fun _ => Except.ok (some [])⟩
    (some [⟨"1", "Unica", none⟩]) rfl rfl rfl
    (Or.inr ⟨[⟨"1", "Unica", none⟩], rfl, by decide⟩)).2

/-- Claim C7: the pipeline always ends with a bootstrap (`mainApp` is
always present); the synthesized bootstrap references the first
screen's PascalCase class name and snake_case import when a screen
exists, the static placeholder home otherwise, and depends only on the
screens sequence. -/
theorem claim7_holds :
    (∀ text : String, (processCode text).mainApp.isSome = true) ∧
    (∀ b : Bundle, b.screens = [] →
      generateMainApp b
        = mainAppTemplate "" "const Center(child: Text(\"Pantalla principal\"))") ∧
    (∀ (b : Bundle) (n c : String) (rest : List (String × String)),
      b.screens = (n, c) :: rest →
      generateMainApp b
        = mainAppTemplate ("import '" ++ svcToSnakeCase n ++ ".dart';")
            (svcToPascalCase n ++ "()")) ∧
    (∀ b b' : Bundle, b.screens = b'.screens → generateMainApp b = generateMainApp b') := by
  have hgen : ∀ b b' : Bundle, b.screens = b'.screens →
      generateMainApp b = generateMainApp b' := by
    intro b b' h
    rw [generateMainApp, generateMainApp, h]
  refine ⟨?_, ?_, ?_, hgen⟩
  · intro text
    rw [processCode]
    split
    · rw [extractWithExtendedPatterns]
      cases h : (findMainFence text.data.length text.data).map extractCodeContent <;> simp [h]
    · split
      · next heq => simp [heq]
      · simp
  · intro b hb
    rw [generateMainApp, hb]
  · intro b n c rest hb
    rw [generateMainApp, hb]

set_option maxRecDepth 8192 in
/-- Claim C7 witness: concrete instantiations — `mainApp` present for a
plain response, bootstrap referencing `LoginScreen()` for a first
screen named `login_screen`, placeholder home with no screens. -/
theorem claim7_witness :
    (processCode "hello").mainApp.isSome = true ∧
    generateMainApp ⟨[("login_screen", "x")], [], [], [], none⟩
      = mainAppTemplate "import 'login_screen.dart';" "LoginScreen()" ∧
    generateMainApp ⟨[], [], [], [], none⟩
      = mainAppTemplate "" "const Center(child: Text(\"Pantalla principal\"))" := by
  refine ⟨claim7_holds.1 "hello", ?_, claim7_holds.2.1 ⟨[], [], [], [], none⟩ rfl⟩
  have h := claim7_holds.2.2.1 ⟨[("login_screen", "x")], [], [], [], none⟩
    "login_screen" "x" [] rfl
  rw [h]
  decide

/-- Claim C8 counterexample: for the data-URI string `data:image,a,b`
the preparation returns the segment between the first and second commas
(`a`), not everything after the first comma (`a,b`) as claimed. -/
theorem claim8_counterexample :
    prepareImageBase64 (.str "data:image,a,b") ≠ Except.ok (some "a,b") ∧
    prepareImageBase64 (.str "data:image,a,b") = Except.ok (some "a") := by
  constructor
  · decide
  · decide

/-- Claim C8 (amended): a `Buffer` is base64-encoded; a data-URI string
prepares to the segment between its first and second commas (equal to
everything after the first comma exactly when no second comma exists);
any other string passes through unchanged; any other shape fails with
the unsupported-format error. -/
theorem claim8_holds :
    (∀ bytes : List UInt8,
      prepareImageBase64 (.buffer bytes) = .ok (some (base64Encode bytes))) ∧
    (∀ pre post : List Char,
      jsStartsWith (String.mk (pre ++ ',' :: post)) "data:image" = true →
      (∀ c ∈ pre, c ≠ ',') →
      prepareImageBase64 (.str (String.mk (pre ++ ',' :: post)))
        = .ok (some (String.mk (post.takeWhile (fun c => c ≠ ','))))) ∧
    (∀ s : String, jsStartsWith s "data:image" = false →
      prepareImageBase64 (.str s) = .ok (some s)) ∧
    prepareImageBase64 .other = .error "Formato de imagen no soportado" := by
  refine ⟨fun bytes => rfl, ?_, ?_, rfl⟩
  · intro pre post hs hpre
    rw [prepareImageBase64]
    rw [if_pos hs]
    have hdata : (String.mk (pre ++ ',' :: post)).data = pre ++ ',' :: post := rfl
    rw [hdata, jsSplitComma_append post pre hpre]
    obtain ⟨t, ht⟩ := jsSplitComma_head post
    rw [ht]
    rfl
  · intro s hs
    rw [prepareImageBase64, if_neg (by simp [hs])]

/-- Claim C8 witness: the specification's own example
`data:image/png;base64,QUJD` prepares to exactly `QUJD`. -/
theorem claim8_witness :
    prepareImageBase64 (.str "data:image/png;base64,QUJD") = .ok (some "QUJD") := by
  have h := claim8_holds.2.1 "data:image/png;base64".data "QUJD".data
    (by decide) (by decide)
  exact h.trans (by decide)

/-- Claim C9: with the figure service available, batch persistence
returns exactly the created records of the elements whose `create`
succeeded, in input order — failing elements are skipped individually
and never abort the rest of the batch. -/
theorem claim9_holds (α β : Type) (create : α → Except String β) (els : List α) :
    createFiguresFromUIElements true create els
      = .ok (els.filterMap (fun e => (create e).toOption)) := by
  simp [createFiguresFromUIElements, createFiguresLoop_eq]

/-- Claim C10: a string starting with `data:image` but containing no
comma prepares to the `undefined` value (the out-of-bounds second
segment of the comma split), not to an error and not to a string. -/
theorem claim10_holds (s : String) (h1 : jsStartsWith s "data:image" = true)
    (h2 : strContains s "," = false) :
    prepareImageBase64 (.str s) = .ok none := by
  rw [prepareImageBase64, if_pos h1]
  rw [jsSplitComma_no_comma s.data (strContains_comma_false h2)]
  rfl

/-- Claim C10 witness: the bare string `data:image` yields the
`undefined` result. -/
theorem claim10_witness : prepareImageBase64 (.str "data:image") = .ok none :=
  claim10_holds "data:image" (by decide) (by decide)
